import Mathlib

/-!
Verification of the billiards geometry engine (`src/lib.rs`).

Shallow embedding conventions:
* `BigDecimal` (arbitrary-precision decimal scalars) is modelled by `ℚ`.
  Addition, subtraction, negation and multiplication of `BigDecimal` are
  exact, so they map to the corresponding `ℚ` operations.  `BigDecimal`
  division is NOT exact: the crate computes the quotient to a precision
  budget (`DEFAULT_PRECISION` = 100 significant digits) and panics on a
  zero divisor.  `bigDecimalDiv` below models that capped division at the
  value level; `TableSpec.inches_to_diamond` keeps the exact quotient as
  an explicit idealization (it agrees with the capped division whenever
  the quotient terminates within the budget, which covers every concrete
  conversion in this file), and the round-trip theorems for C1 — the one
  place the difference is observable — are settled against the capped
  model `TableSpec.inches_to_diamond_capped`.
* `f64` values produced by the trigonometric code (`atan2`, `to_degrees`,
  `rem_euclid`, `sqrt`) are modelled by `ℝ` with the exact real functions.
* The constant `OPTIMAL_PACKING_RADIUS_SHIFT` is produced in the source by
  `BigDecimal::from_usize(3).unwrap().sqrt().unwrap()`, a decimal (hence
  rational) approximation of `√3` computed inside the external `bigdecimal`
  crate.  Its exact digits are internal to that crate, so it is modelled as
  a parameter `sqrt3_approx : ℚ`; the rack-layout theorems are proved for
  every value of this parameter and therefore cover the library's actual
  value, whatever its digits are.
* Rust panics (`unreachable!`) are modelled by an `Option` result, with
  `none` for the panicking branch.
-/

/-- Model of `Diamond` (`src/lib.rs`): a table-relative scalar wrapping a
`BigDecimal` magnitude, modelled by `ℚ`. -/
structure Diamond where
  magnitude : ℚ
deriving DecidableEq

/-- Model of `Inches` (`src/lib.rs`): a physical-length scalar wrapping a
`BigDecimal` magnitude, modelled by `ℚ`. -/
structure Inches where
  magnitude : ℚ
deriving DecidableEq

instance : Add Diamond := ⟨fun a b => ⟨a.magnitude + b.magnitude⟩⟩

instance : Sub Diamond := ⟨fun a b => ⟨a.magnitude - b.magnitude⟩⟩

instance : Neg Diamond := ⟨fun a => ⟨-a.magnitude⟩⟩

instance : Add Inches := ⟨fun a b => ⟨a.magnitude + b.magnitude⟩⟩

instance : Sub Inches := ⟨fun a b => ⟨a.magnitude - b.magnitude⟩⟩

instance : Neg Inches := ⟨fun a => ⟨-a.magnitude⟩⟩

/-- `impl Mul for Inches`: multiplies the magnitudes. -/
instance : Mul Inches := ⟨fun a b => ⟨a.magnitude * b.magnitude⟩⟩

/-- `Diamond::zero`. -/
def Diamond.zero : Diamond := ⟨0⟩

/-- `Diamond::one`. -/
def Diamond.one : Diamond := ⟨1⟩

/-- `Diamond::two`. -/
def Diamond.two : Diamond := ⟨2⟩

/-- `Diamond::four`. -/
def Diamond.four : Diamond := ⟨4⟩

/-- `Diamond::eight`. -/
def Diamond.eight : Diamond := ⟨8⟩

/-- `Inches::double`: doubles the magnitude. -/
def Inches.double (i : Inches) : Inches := ⟨i.magnitude * 2⟩

/-- `impl Default for Inches` (derived): zero magnitude. -/
instance : Inhabited Inches := ⟨⟨0⟩⟩

/-- Constant `DIAMOND_SIGHT_NOSE_OFFSET = 3.6875` inches. -/
def DIAMOND_SIGHT_NOSE_OFFSET : Inches := ⟨3.6875⟩

/-- Constant `GC4_POCKET_DEPTH = 1.4` inches. -/
def GC4_POCKET_DEPTH : Inches := ⟨1.4⟩

/-- Constant `GC4_CORNER_POCKET_WIDTH = 4.5` inches. -/
def GC4_CORNER_POCKET_WIDTH : Inches := ⟨4.5⟩

/-- Constant `GC4_SIDE_POCKET_WIDTH = 5` inches. -/
def GC4_SIDE_POCKET_WIDTH : Inches := ⟨5⟩

/-- Constant `TYPICAL_BALL_RADIUS = 1.125` inches. -/
def TYPICAL_BALL_RADIUS : Inches := ⟨1.125⟩

/-- Constant `OPTIMAL_PACKING_RADIUS_SHIFT`: the source stores
`BigDecimal::from_usize(3).unwrap().sqrt().unwrap()`, the `bigdecimal`
crate's decimal approximation of `√3`.  The crate is external to this
repository, so the approximation's value is taken as the parameter
`sqrt3_approx`. -/
def OPTIMAL_PACKING_RADIUS_SHIFT (sqrt3_approx : ℚ) : Inches := ⟨sqrt3_approx⟩

/-- `PocketType` (`Corner` or `Side`). -/
inductive PocketType where
  | Corner : PocketType
  | Side : PocketType
deriving DecidableEq

/-- `PocketSpec`: physical specification of a pocket. -/
structure PocketSpec where
  ty : PocketType
  depth : Diamond
  width : Diamond
deriving DecidableEq

/-- `TableSpec`: physical specification of a pool table.  The Rust type
holds a fixed array `[PocketSpec; 6]`, modelled here as a list.  All fields
are public in the source and the struct has no validating constructor. -/
structure TableSpec where
  pockets : List PocketSpec
  cushion_diamond_buffer : Diamond
  diamond_length : Inches
deriving DecidableEq

/-- `TableSpec::brunswick_gc4_corner_pocket`. -/
def TableSpec.brunswick_gc4_corner_pocket (diamond_length : Inches) : PocketSpec :=
  { ty := PocketType.Corner
    depth := ⟨GC4_POCKET_DEPTH.magnitude / diamond_length.magnitude⟩
    width := ⟨GC4_CORNER_POCKET_WIDTH.magnitude / diamond_length.magnitude⟩ }

/-- `TableSpec::brunswick_gc4_side_pocket`. -/
def TableSpec.brunswick_gc4_side_pocket (diamond_length : Inches) : PocketSpec :=
  { ty := PocketType.Side
    depth := ⟨GC4_POCKET_DEPTH.magnitude / diamond_length.magnitude⟩
    width := ⟨GC4_SIDE_POCKET_WIDTH.magnitude / diamond_length.magnitude⟩ }

/-- `TableSpec::brunswick_gc4_9ft`: the 9-ft Brunswick Gold Crown IV preset,
with `diamond_length = 12.5` inches. -/
def TableSpec.brunswick_gc4_9ft : TableSpec :=
  let diamond_length : Inches := ⟨12.5⟩
  { diamond_length := diamond_length
    cushion_diamond_buffer :=
      ⟨DIAMOND_SIGHT_NOSE_OFFSET.magnitude / diamond_length.magnitude⟩
    pockets :=
      [TableSpec.brunswick_gc4_corner_pocket diamond_length,
       TableSpec.brunswick_gc4_side_pocket diamond_length,
       TableSpec.brunswick_gc4_corner_pocket diamond_length,
       TableSpec.brunswick_gc4_corner_pocket diamond_length,
       TableSpec.brunswick_gc4_side_pocket diamond_length,
       TableSpec.brunswick_gc4_corner_pocket diamond_length] }

/-- `TableSpec::diamond_to_inches`: multiply by `diamond_length`. -/
def TableSpec.diamond_to_inches (ts : TableSpec) (val : Diamond) : Inches :=
  ⟨val.magnitude * ts.diamond_length.magnitude⟩

/-- `TableSpec::inches_to_diamond`: divide by `diamond_length`.  In the
source this `/` is the `bigdecimal` crate's division, which is capped at
`DIV_PRECISION` significant digits (see `bigDecimalDiv`) and panics on a
zero divisor.  This definition takes the exact quotient instead — an
idealization that agrees with the capped division exactly when the
quotient's decimal expansion terminates within the budget, which holds
for every concrete conversion this file performs.  The round-trip claim,
where the difference is observable, is settled against
`TableSpec.inches_to_diamond_capped`. -/
def TableSpec.inches_to_diamond (ts : TableSpec) (val : Inches) : Diamond :=
  ⟨val.magnitude / ts.diamond_length.magnitude⟩

/-- Significant-digit budget of the `bigdecimal` crate's division
(`DEFAULT_PRECISION = 100`). -/
def DIV_PRECISION : ℕ := 100

/-- Value-level model of the `bigdecimal` crate's division (`impl Div for
BigDecimal`, `impl_division`): the quotient's decimal expansion is
produced to at most `DIV_PRECISION` significant digits; an expansion that
terminates within the budget is returned exactly, otherwise the final
kept digit is rounded (half-up) from the next digit of the expansion.
`Int.log 10` locates the leading significant digit of the magnitude.  The
crate panics on a zero divisor (modelled by `0`, a branch no theorem
relies on).  For operands whose own digit counts overflow the budget the
crate's result additionally depends on the operands' internal scale
representation, invisible to a value-level model; every division in this
repository divides short table constants, far inside the budget. -/
def bigDecimalDiv (a b : ℚ) : ℚ :=
  if b = 0 then 0
  else if a = 0 then 0
  else
    let q := a / b
    let scaled := |q| * (10 : ℚ) ^ ((DIV_PRECISION : ℤ) - 1 - Int.log 10 |q|)
    let N := ⌊scaled⌋
    if (N : ℚ) = scaled then q
    else
      (if q < 0 then -1 else 1) *
        (((N : ℚ) + if (1 : ℚ) / 2 ≤ scaled - (N : ℚ) then 1 else 0) *
          (10 : ℚ) ^ (Int.log 10 |q| - ((DIV_PRECISION : ℤ) - 1)))

/-- Faithful (precision-capped) model of `TableSpec::inches_to_diamond`:
the source's division by `diamond_length` as the `bigdecimal` crate
actually computes it.  `TableSpec.inches_to_diamond` above is its
exact-quotient idealization; the two agree exactly when the quotient
terminates within the precision budget. -/
def TableSpec.inches_to_diamond_capped (ts : TableSpec) (val : Inches) : Diamond :=
  ⟨bigDecimalDiv val.magnitude ts.diamond_length.magnitude⟩

/-- `PolarDirection`. -/
inductive PolarDirection where
  | Positive : PolarDirection
  | Negative : PolarDirection
deriving DecidableEq

/-- `Position`: a point on the table in Diamond coordinates plus the two
optional pending inch shifts. -/
structure Position where
  x : Diamond
  y : Diamond
  unresolved_x_shift : Option Inches := none
  unresolved_y_shift : Option Inches := none
deriving DecidableEq

/-- Constant `CENTER_SPOT = (2, 4)`. -/
def CENTER_SPOT : Position := ⟨⟨2⟩, ⟨4⟩, none, none⟩

/-- Constant `TOP_RIGHT_DIAMOND = (4, 8)`. -/
def TOP_RIGHT_DIAMOND : Position := ⟨⟨4⟩, ⟨8⟩, none, none⟩

/-- Constant `CENTER_RIGHT_DIAMOND = (4, 4)`. -/
def CENTER_RIGHT_DIAMOND : Position := ⟨⟨4⟩, ⟨4⟩, none, none⟩

/-- Constant `RACK_SPOT = (2, 2)`. -/
def RACK_SPOT : Position := ⟨⟨2⟩, ⟨2⟩, none, none⟩

/-- Constant `BOTTOM_RIGHT_DIAMOND = (4, 0)`. -/
def BOTTOM_RIGHT_DIAMOND : Position := ⟨⟨4⟩, ⟨0⟩, none, none⟩

/-- Constant `BOTTOM_LEFT_DIAMOND = (0, 0)`. -/
def BOTTOM_LEFT_DIAMOND : Position := ⟨⟨0⟩, ⟨0⟩, none, none⟩

/-- Constant `CENTER_LEFT_DIAMOND = (0, 4)`. -/
def CENTER_LEFT_DIAMOND : Position := ⟨⟨0⟩, ⟨4⟩, none, none⟩

/-- Constant `TOP_LEFT_DIAMOND = (0, 8)`. -/
def TOP_LEFT_DIAMOND : Position := ⟨⟨0⟩, ⟨8⟩, none, none⟩

/-- Constant `CORNER_AIMING_CENTER_DX = 0.07` Diamonds. -/
def CORNER_AIMING_CENTER_DX : Diamond := ⟨0.07⟩

/-- Constant `CORNER_AIMING_CENTER_DY = 0.07` Diamonds. -/
def CORNER_AIMING_CENTER_DY : Diamond := ⟨0.07⟩

/-- `Displacement`: the componentwise vector difference of two positions. -/
structure Displacement where
  dx : Diamond
  dy : Diamond
deriving DecidableEq

/-- `Position::displacement`: `to - self`, componentwise on `x`/`y` (the
pending shift fields are not consulted). -/
def Position.displacement (p other : Position) : Displacement :=
  ⟨other.x - p.x, other.y - p.y⟩

/-- `Position::direction_from_center`: classify the quadrant relative to
`CENTER_SPOT` by strict comparison (`>` on the `BigDecimal` magnitudes). -/
def Position.direction_from_center (p : Position) : PolarDirection × PolarDirection :=
  (if CENTER_SPOT.x.magnitude < p.x.magnitude then PolarDirection.Positive
   else PolarDirection.Negative,
   if CENTER_SPOT.y.magnitude < p.y.magnitude then PolarDirection.Positive
   else PolarDirection.Negative)

/-- `Position::merge_unset_component`: write `diamond` into the first
coordinate that is still `Diamond::zero()`; the source reaches
`unreachable!()` (a panic, modelled by `none`) when both are nonzero. -/
def Position.merge_unset_component (p : Position) (diamond : Diamond) : Option Position :=
  if p.x = Diamond.zero then some { p with x := diamond }
  else if p.y = Diamond.zero then some { p with y := diamond }
  else none

/-- `Position::shift_horizontally`: add a Diamond distance to `x`. -/
def Position.shift_horizontally (p : Position) (distance : Diamond) : Position :=
  { p with x := p.x + distance }

/-- `Position::shift_vertically`: add a Diamond distance to `y`. -/
def Position.shift_vertically (p : Position) (distance : Diamond) : Position :=
  { p with y := p.y + distance }

/-- `Position::shift_horizontally_inches`: accumulate an inch distance into
the pending x shift (`unwrap_or_default` starts from zero inches). -/
def Position.shift_horizontally_inches (p : Position) (distance : Inches) : Position :=
  { p with unresolved_x_shift := some ((p.unresolved_x_shift.getD ⟨0⟩) + distance) }

/-- `Position::shift_vertically_inches`: accumulate an inch distance into
the pending y shift. -/
def Position.shift_vertically_inches (p : Position) (distance : Inches) : Position :=
  { p with unresolved_y_shift := some ((p.unresolved_y_shift.getD ⟨0⟩) + distance) }

/-- `Position::resolve_shifts`: fold each pending inch shift into the
corresponding coordinate via `inches_to_diamond`, then clear it. -/
def Position.resolve_shifts (p : Position) (table_spec : TableSpec) : Position :=
  let p1 :=
    match p.unresolved_x_shift with
    | some shift =>
        { p.shift_horizontally (table_spec.inches_to_diamond shift) with
            unresolved_x_shift := none }
    | none => p
  match p1.unresolved_y_shift with
  | some shift =>
      { p1.shift_vertically (table_spec.inches_to_diamond shift) with
          unresolved_y_shift := none }
  | none => p1

/-- `translate_inwards`: offset a corner anchor toward the table interior,
choosing the sign of each axis offset from `direction_from_center`. -/
def translate_inwards (origin : Position) (dx dy : Diamond) : Position :=
  let dir := origin.direction_from_center
  { x :=
      match dir.1 with
      | PolarDirection.Positive => origin.x - dx
      | PolarDirection.Negative => origin.x + dx
    y :=
      match dir.2 with
      | PolarDirection.Positive => origin.y - dy
      | PolarDirection.Negative => origin.y + dy
    unresolved_x_shift := none
    unresolved_y_shift := none }

/-- Constant `AIM_TOP_RIGHT_POCKET`. -/
def AIM_TOP_RIGHT_POCKET : Position :=
  translate_inwards TOP_RIGHT_DIAMOND CORNER_AIMING_CENTER_DX CORNER_AIMING_CENTER_DY

/-- Constant `AIM_BOTTOM_RIGHT_POCKET`. -/
def AIM_BOTTOM_RIGHT_POCKET : Position :=
  translate_inwards BOTTOM_RIGHT_DIAMOND CORNER_AIMING_CENTER_DX CORNER_AIMING_CENTER_DY

/-- Constant `AIM_BOTTOM_LEFT_POCKET`. -/
def AIM_BOTTOM_LEFT_POCKET : Position :=
  translate_inwards BOTTOM_LEFT_DIAMOND CORNER_AIMING_CENTER_DX CORNER_AIMING_CENTER_DY

/-- Constant `AIM_TOP_LEFT_POCKET`. -/
def AIM_TOP_LEFT_POCKET : Position :=
  translate_inwards TOP_LEFT_DIAMOND CORNER_AIMING_CENTER_DX CORNER_AIMING_CENTER_DY

/-- `Pocket`: the six pockets. -/
inductive Pocket where
  | TopRight : Pocket
  | CenterRight : Pocket
  | BottomRight : Pocket
  | BottomLeft : Pocket
  | CenterLeft : Pocket
  | TopLeft : Pocket
deriving DecidableEq

/-- `Pocket::aiming_center`. -/
def Pocket.aiming_center (p : Pocket) : Position :=
  match p with
  | Pocket.TopRight => AIM_TOP_RIGHT_POCKET
  | Pocket.CenterRight => CENTER_RIGHT_DIAMOND
  | Pocket.BottomRight => AIM_BOTTOM_RIGHT_POCKET
  | Pocket.BottomLeft => AIM_BOTTOM_LEFT_POCKET
  | Pocket.CenterLeft => CENTER_LEFT_DIAMOND
  | Pocket.TopLeft => AIM_TOP_LEFT_POCKET

/-- `Angle`: a direction in degrees, clockwise from north.  The wrapped
`f64` is modelled by `ℝ`. -/
structure Angle where
  val : ℝ

/-- IEEE `f64::atan2` (`self = dx`, `other = dy`), modelled by the exact
real case split: `arctan (dx/dy)` shifted into the correct half-plane, with
the conventional values on the `dy = 0` axis. -/
noncomputable def atan2 (dx dy : ℝ) : ℝ :=
  if 0 < dy then Real.arctan (dx / dy)
  else if dy < 0 then
    (if 0 ≤ dx then Real.arctan (dx / dy) + Real.pi
     else Real.arctan (dx / dy) - Real.pi)
  else
    (if 0 < dx then Real.pi / 2
     else if dx < 0 then -(Real.pi / 2)
     else 0)

/-- `Angle::from_north`: `atan2(dx, dy)` converted to degrees
(`to_degrees` multiplies by `180 / π`), plus `360` if negative. -/
noncomputable def Angle.from_north (dx dy : ℝ) : Angle :=
  let deg := atan2 dx dy * (180 / Real.pi)
  ⟨if deg < 0 then deg + 360 else deg⟩

/-- `f64::rem_euclid` for a positive modulus: `x - m * ⌊x / m⌋`. -/
noncomputable def fremEuclid (x m : ℝ) : ℝ := x - m * ⌊x / m⌋

/-- `Angle::flipped`: `(angle + 180).rem_euclid(360)`. -/
noncomputable def Angle.flipped (a : Angle) : Angle :=
  ⟨fremEuclid (a.val + 180) 360⟩

/-- `Position::angle_to_pocket`: angle from `self` to the pocket's aiming
center, computed from the `x`/`y` coordinates only (the `BigDecimal`
differences are converted `to_f64`, modelled by the cast into `ℝ`). -/
noncomputable def Position.angle_to_pocket (p : Position) (pocket : Pocket) : Angle :=
  let target := pocket.aiming_center
  Angle.from_north
    ((target.x.magnitude - p.x.magnitude : ℚ) : ℝ)
    ((target.y.magnitude - p.y.magnitude : ℚ) : ℝ)

/-- `Position::angle_from_pocket`. -/
noncomputable def Position.angle_from_pocket (p : Position) (pocket : Pocket) : Angle :=
  (p.angle_to_pocket pocket).flipped

/-- `Displacement::absolute_distance`: the source converts both components
`to_f64`, computes `(dx*dx + dy*dy).sqrt()` and wraps the result back into
a `Diamond`; the `f64` computation is modelled by the exact real square
root, returned as a bare `ℝ`. -/
noncomputable def Displacement.absolute_distance (d : Displacement) : ℝ :=
  Real.sqrt ((d.dx.magnitude : ℝ) * (d.dx.magnitude : ℝ) +
    (d.dy.magnitude : ℝ) * (d.dy.magnitude : ℝ))

/-- Real-valued lift of `TableSpec::diamond_to_inches`, used to express an
`f64` Diamond-space distance in inches. -/
noncomputable def TableSpec.diamond_to_inches_real (ts : TableSpec) (val : ℝ) : ℝ :=
  val * (ts.diamond_length.magnitude : ℝ)

/-- `BallType`. -/
inductive BallType where
  | One | Two | Three | Four | Five | Six | Seven | Eight | Nine | Cue
deriving DecidableEq

/-- `BallSpec`: physical specification of a ball. -/
structure BallSpec where
  radius : Inches
deriving DecidableEq

/-- `impl Default for BallSpec`: radius `1.125` inches. -/
instance : Inhabited BallSpec := ⟨⟨⟨1.125⟩⟩⟩

/-- `Ball`. -/
structure Ball where
  ty : BallType
  position : Position
  spec : BallSpec
deriving DecidableEq

/-- `GameType`. -/
inductive GameType where
  | NineBall | EightBall | TenBall | OnePocket | Banks
deriving DecidableEq

/-- `CueballModifier`. -/
inductive CueballModifier where
  | AsItLays | BreakPlacement | BallInHand | KitchenPlacement
deriving DecidableEq

/-- `Rail`. -/
inductive Rail where
  | Top | Bottom | Left | Right
deriving DecidableEq

/-- `GameState`.  The overlay `lines_to_draw : Vec<(Position, Position,
Rgba<u8>)>` is rendering state; the color bytes are modelled as a
quadruple of naturals. -/
structure GameState where
  table_spec : TableSpec
  ball_positions : List Ball
  ty : GameType
  cueball_modifier : CueballModifier
  lines_to_draw : List (Position × Position × (ℕ × ℕ × ℕ × ℕ))

/-- `GameState::resolve_positions`: resolve every ball's pending shifts
against the game's own `TableSpec`. -/
def GameState.resolve_positions (gs : GameState) : GameState :=
  { gs with
      ball_positions :=
        gs.ball_positions.map fun b =>
          { b with position := b.position.resolve_shifts gs.table_spec } }

/-- `GameState::freeze_to_rail`: pin the coordinate perpendicular to the
rail at the cushion line offset inward by the ball's radius (converted to
Diamond units), set the free coordinate to the supplied diamond, and push
the ball onto `ball_positions`. -/
def GameState.freeze_to_rail (gs : GameState) (rail : Rail) (diamond : Diamond)
    (ball : Ball) : GameState :=
  let ball' :=
    match rail with
    | Rail.Top =>
        { ball with position :=
            { ball.position with
                y := Diamond.eight - gs.table_spec.inches_to_diamond ball.spec.radius
                x := diamond } }
    | Rail.Right =>
        { ball with position :=
            { ball.position with
                x := Diamond.four - gs.table_spec.inches_to_diamond ball.spec.radius
                y := diamond } }
    | Rail.Bottom =>
        { ball with position :=
            { ball.position with
                y := Diamond.zero + gs.table_spec.inches_to_diamond ball.spec.radius
                x := diamond } }
    | Rail.Left =>
        { ball with position :=
            { ball.position with
                x := Diamond.zero + gs.table_spec.inches_to_diamond ball.spec.radius
                y := diamond } }
  { gs with ball_positions := gs.ball_positions ++ [ball'] }

/-- `racked_ball_positions`: the nine 9-ball rack positions, built from
`RACK_SPOT` by accumulating pending inch shifts (`sqrt3_approx` stands for
the crate's decimal approximation of `√3`, see
`OPTIMAL_PACKING_RADIUS_SHIFT`). -/
def racked_ball_positions (sqrt3_approx : ℚ) : List Position :=
  let head_ball_position := RACK_SPOT
  let second_row_left :=
    (head_ball_position.shift_vertically_inches
        (-TYPICAL_BALL_RADIUS * OPTIMAL_PACKING_RADIUS_SHIFT sqrt3_approx)).shift_horizontally_inches
      (-TYPICAL_BALL_RADIUS)
  let second_row_right :=
    second_row_left.shift_horizontally_inches TYPICAL_BALL_RADIUS.double
  let third_row_left :=
    (second_row_left.shift_vertically_inches
        (-TYPICAL_BALL_RADIUS * OPTIMAL_PACKING_RADIUS_SHIFT sqrt3_approx)).shift_horizontally_inches
      (-TYPICAL_BALL_RADIUS)
  let third_row_center :=
    third_row_left.shift_horizontally_inches TYPICAL_BALL_RADIUS.double
  let third_row_right :=
    third_row_center.shift_horizontally_inches TYPICAL_BALL_RADIUS.double
  let fourth_row_left :=
    (third_row_center.shift_vertically_inches
        (-TYPICAL_BALL_RADIUS * OPTIMAL_PACKING_RADIUS_SHIFT sqrt3_approx)).shift_horizontally_inches
      (-TYPICAL_BALL_RADIUS)
  let fourth_row_right :=
    fourth_row_left.shift_horizontally_inches TYPICAL_BALL_RADIUS.double
  let final_ball :=
    third_row_center.shift_vertically_inches
      (-TYPICAL_BALL_RADIUS.double * OPTIMAL_PACKING_RADIUS_SHIFT sqrt3_approx)
  [head_ball_position, second_row_left, second_row_right, third_row_left,
   third_row_center, third_row_right, fourth_row_left, fourth_row_right,
   final_ball]

/-- The rack positions resolved against a `TableSpec`, as
`GameState::resolve_positions` would do (exact-quotient resolution, see
`Position.resolve_shifts` and `TableSpec.inches_to_diamond`). -/
def rackResolved (sqrt3_approx : ℚ) (ts : TableSpec) : List Position :=
  (racked_ball_positions sqrt3_approx).map fun p => p.resolve_shifts ts

/-- Center-to-center distance in inches (via the given `TableSpec`)
between rack balls `i` and `j` after resolution. -/
noncomputable def rackPairDistanceInches (sqrt3_approx : ℚ) (ts : TableSpec)
    (i j : ℕ) : ℝ :=
  ts.diamond_to_inches_real
    (((rackResolved sqrt3_approx ts).getD i RACK_SPOT).displacement
        ((rackResolved sqrt3_approx ts).getD j RACK_SPOT)).absolute_distance

/-- Unfolding lemma for `Diamond` addition. -/
@[simp] theorem diamond_add_def (a b : ℚ) : (⟨a⟩ + ⟨b⟩ : Diamond) = ⟨a + b⟩ := rfl

/-- Unfolding lemma for `Diamond` subtraction. -/
@[simp] theorem diamond_sub_def (a b : ℚ) : (⟨a⟩ - ⟨b⟩ : Diamond) = ⟨a - b⟩ := rfl

/-- Unfolding lemma for `Diamond` negation. -/
@[simp] theorem diamond_neg_def (a : ℚ) : (-(⟨a⟩ : Diamond)) = ⟨-a⟩ := rfl

/-- Unfolding lemma for `Inches` addition. -/
@[simp] theorem inches_add_def (a b : ℚ) : (⟨a⟩ + ⟨b⟩ : Inches) = ⟨a + b⟩ := rfl

/-- Unfolding lemma for `Inches` subtraction. -/
@[simp] theorem inches_sub_def (a b : ℚ) : (⟨a⟩ - ⟨b⟩ : Inches) = ⟨a - b⟩ := rfl

/-- Unfolding lemma for `Inches` negation. -/
@[simp] theorem inches_neg_def (a : ℚ) : (-(⟨a⟩ : Inches)) = ⟨-a⟩ := rfl

/-- Unfolding lemma for `Inches` multiplication. -/
@[simp] theorem inches_mul_def (a b : ℚ) : (⟨a⟩ * ⟨b⟩ : Inches) = ⟨a * b⟩ := rfl

/-- Addition of a zero-magnitude `Diamond` is the identity. -/
@[simp] theorem Diamond.add_zero_mk (d : Diamond) : d + ⟨0⟩ = d := by
  obtain ⟨m⟩ := d
  simp

/-- Uniqueness characterization of the base-10 integer logarithm on `ℚ`. -/
theorem int_log10_eq (r : ℚ) (e : ℤ) (h1 : (10:ℚ) ^ e ≤ r)
    (h2 : r < (10:ℚ) ^ (e + 1)) : Int.log 10 r = e := by
  have hr : 0 < r := lt_of_lt_of_le (by positivity) h1
  have hc : ((10:ℕ):ℚ) = (10:ℚ) := by norm_num
  have hle : Int.log 10 r ≤ e := by
    have hs := Int.zpow_log_le_self (b := 10) (by norm_num) hr
    rw [hc] at hs
    have hlt : (10:ℚ) ^ Int.log 10 r < (10:ℚ) ^ (e + 1) := lt_of_le_of_lt hs h2
    have := (zpow_lt_zpow_iff_right₀ (by norm_num : (1:ℚ) < 10)).mp hlt
    omega
  have hge : e ≤ Int.log 10 r := by
    have hs := Int.lt_zpow_succ_log_self (b := 10) (by norm_num) r
    rw [hc] at hs
    have hlt : (10:ℚ) ^ e < (10:ℚ) ^ (Int.log 10 r + 1) := lt_of_le_of_lt h1 hs
    have := (zpow_lt_zpow_iff_right₀ (by norm_num : (1:ℚ) < 10)).mp hlt
    omega
  omega

/-- Evaluation of `bigDecimalDiv` when the quotient is positive and its
decimal expansion terminates within the precision budget: the division is
exact. -/
theorem bigDecimalDiv_of_exact_pos (a b : ℚ) (hb : b ≠ 0) (ha : a ≠ 0)
    (hpos : 0 < a / b) (e n : ℤ)
    (h1 : (10:ℚ) ^ e ≤ a / b) (h2 : a / b < (10:ℚ) ^ (e + 1))
    (hn : a / b * (10:ℚ) ^ ((DIV_PRECISION : ℤ) - 1 - e) = (n : ℚ)) :
    bigDecimalDiv a b = a / b := by
  have habs : |a / b| = a / b := abs_of_pos hpos
  have hE : Int.log 10 |a / b| = e := by rw [habs]; exact int_log10_eq _ _ h1 h2
  simp only [bigDecimalDiv]
  rw [if_neg hb, if_neg ha, hE, habs, hn, Int.floor_intCast, if_pos rfl]

/-- Evaluation of `bigDecimalDiv` when the positive quotient's expansion
does not terminate within the budget: the result is
`m · 10^(e - (precision - 1))` for some integer `m` (the kept significant
digits, possibly rounded up). -/
theorem bigDecimalDiv_of_not_exact_pos (a b : ℚ) (hb : b ≠ 0) (ha : a ≠ 0)
    (hpos : 0 < a / b) (e : ℤ)
    (h1 : (10:ℚ) ^ e ≤ a / b) (h2 : a / b < (10:ℚ) ^ (e + 1))
    (hne : ∀ n : ℤ, a / b * (10:ℚ) ^ ((DIV_PRECISION : ℤ) - 1 - e) ≠ (n : ℚ)) :
    ∃ m : ℤ,
      bigDecimalDiv a b = (m : ℚ) * (10:ℚ) ^ (e - ((DIV_PRECISION : ℤ) - 1)) := by
  have habs : |a / b| = a / b := abs_of_pos hpos
  have hE : Int.log 10 |a / b| = e := by rw [habs]; exact int_log10_eq _ _ h1 h2
  simp only [bigDecimalDiv]
  rw [if_neg hb, if_neg ha, hE, habs,
    if_neg ((hne ⌊a / b * (10:ℚ) ^ ((DIV_PRECISION : ℤ) - 1 - e)⌋).symm),
    if_neg (not_lt.mpr hpos.le)]
  by_cases hround :
      (1:ℚ) / 2 ≤ a / b * (10:ℚ) ^ ((DIV_PRECISION : ℤ) - 1 - e) -
        (⌊a / b * (10:ℚ) ^ ((DIV_PRECISION : ℤ) - 1 - e)⌋ : ℚ)
  · refine ⟨⌊a / b * (10:ℚ) ^ ((DIV_PRECISION : ℤ) - 1 - e)⌋ + 1, ?_⟩
    rw [if_pos hround]
    push_cast
    ring
  · refine ⟨⌊a / b * (10:ℚ) ^ ((DIV_PRECISION : ℤ) - 1 - e)⌋, ?_⟩
    rw [if_neg hround]
    ring

/-- The crate's division computes `1.125 / 12.5 = 0.09` exactly (the
expansion terminates inside the budget). -/
theorem bigDecimalDiv_brunswick_radius :
    bigDecimalDiv 1.125 12.5 = 1.125 / 12.5 := by
  refine bigDecimalDiv_of_exact_pos 1.125 12.5 (by norm_num) (by norm_num)
    (by norm_num) (-2) (9 * 10 ^ 99) (by norm_num) (by norm_num) ?_
  push_cast
  norm_num [DIV_PRECISION]

/-- The crate's division computes `37.5 / 12.5 = 3` exactly. -/
theorem bigDecimalDiv_brunswick_diamond :
    bigDecimalDiv 37.5 12.5 = 37.5 / 12.5 := by
  refine bigDecimalDiv_of_exact_pos 37.5 12.5 (by norm_num) (by norm_num)
    (by norm_num) 0 (3 * 10 ^ 99) (by norm_num) (by norm_num) ?_
  push_cast
  norm_num [DIV_PRECISION]

/-- C1 counterexample: on a table with `diamond_length = 3` — nonzero, so
inside the claim's own hypothesis — the crate's precision-capped division
truncates `1 / 3`, and `diamond_to_inches (inches_to_diamond 1)` is not
`1`: the universal exact round-trip fails on the program. -/
theorem C1_roundtrip_counterexample :
    (TableSpec.mk [] ⟨0⟩ ⟨3⟩).diamond_length.magnitude ≠ 0 ∧
    (TableSpec.mk [] ⟨0⟩ ⟨3⟩).diamond_to_inches
        ((TableSpec.mk [] ⟨0⟩ ⟨3⟩).inches_to_diamond_capped ⟨1⟩) ≠ ⟨1⟩ := by
  refine ⟨by norm_num, ?_⟩
  have hne : ∀ n : ℤ,
      (1:ℚ) / 3 * (10:ℚ) ^ ((DIV_PRECISION : ℤ) - 1 - (-1)) ≠ (n : ℚ) := by
    intro n h
    rw [show ((DIV_PRECISION : ℤ) - 1 - (-1)) = (100:ℕ) from by
      norm_num [DIV_PRECISION]] at h
    rw [zpow_natCast] at h
    have h3 : (10:ℚ) ^ (100:ℕ) = 3 * (n : ℚ) := by
      field_simp at h
      linarith
    have hz : (10:ℤ) ^ (100:ℕ) = 3 * n := by exact_mod_cast h3
    omega
  obtain ⟨m, hm⟩ := bigDecimalDiv_of_not_exact_pos 1 3 (by norm_num)
    (by norm_num) (by norm_num) (-1) (by norm_num) (by norm_num) hne
  simp only [TableSpec.diamond_to_inches, TableSpec.inches_to_diamond_capped,
    Inches.mk.injEq]
  rw [hm]
  intro h
  rw [show ((-1:ℤ) - ((DIV_PRECISION : ℤ) - 1)) = -(100:ℕ) from by
    norm_num [DIV_PRECISION]] at h
  rw [zpow_neg, zpow_natCast] at h
  have h100 : ((10:ℚ) ^ (100:ℕ)) ≠ 0 := by positivity
  have h3 : (m : ℚ) * 3 = (10:ℚ) ^ (100:ℕ) := by
    field_simp at h
    linarith
  have hz : m * 3 = (10:ℤ) ^ (100:ℕ) := by exact_mod_cast h3
  omega

/-- C1 (amended): `diamond_to_inches` (exact multiplication) undoes
`inches_to_diamond` exactly precisely when the crate's precision-capped
division computed the exact quotient: for every nonzero `diamond_length`,
`diamond_to_inches (inches_to_diamond v) = v` iff the capped division of
`v` by `diamond_length` equals the exact quotient `v / diamond_length`
(true whenever the expansion terminates within the 100-significant-digit
budget, in particular for the Brunswick constants, where both round
trips hold concretely; false for non-terminating quotients such as
`v = 1`, `diamond_length = 3`); and with the division idealized as exact,
`inches_to_diamond (diamond_to_inches d) = d` for every `d`. -/
theorem C1_conversion_roundtrip_amended :
    (∀ ts : TableSpec, ts.diamond_length.magnitude ≠ 0 →
      ∀ v : Inches,
        (ts.diamond_to_inches (ts.inches_to_diamond_capped v) = v ↔
          ts.inches_to_diamond_capped v = ts.inches_to_diamond v)) ∧
    (∀ ts : TableSpec, ts.diamond_length.magnitude ≠ 0 →
      ∀ d : Diamond, ts.inches_to_diamond (ts.diamond_to_inches d) = d) ∧
    TableSpec.brunswick_gc4_9ft.inches_to_diamond_capped ⟨1.125⟩ =
      TableSpec.brunswick_gc4_9ft.inches_to_diamond ⟨1.125⟩ ∧
    TableSpec.brunswick_gc4_9ft.diamond_to_inches
        (TableSpec.brunswick_gc4_9ft.inches_to_diamond_capped ⟨1.125⟩) = ⟨1.125⟩ ∧
    TableSpec.brunswick_gc4_9ft.inches_to_diamond_capped
        (TableSpec.brunswick_gc4_9ft.diamond_to_inches ⟨3⟩) = ⟨3⟩ := by
  have hcap : ∀ ts : TableSpec, ts.diamond_length.magnitude ≠ 0 →
      ∀ v : Inches,
        (ts.diamond_to_inches (ts.inches_to_diamond_capped v) = v ↔
          ts.inches_to_diamond_capped v = ts.inches_to_diamond v) := by
    rintro ts h ⟨vm⟩
    simp only [TableSpec.diamond_to_inches, TableSpec.inches_to_diamond,
      TableSpec.inches_to_diamond_capped, Inches.mk.injEq, Diamond.mk.injEq]
    exact (eq_div_iff h).symm
  have hBL : TableSpec.brunswick_gc4_9ft.diamond_length.magnitude = 12.5 := by
    norm_num [TableSpec.brunswick_gc4_9ft]
  have hrad : TableSpec.brunswick_gc4_9ft.inches_to_diamond_capped ⟨1.125⟩ =
      TableSpec.brunswick_gc4_9ft.inches_to_diamond ⟨1.125⟩ := by
    simp only [TableSpec.inches_to_diamond_capped, TableSpec.inches_to_diamond,
      Diamond.mk.injEq, hBL]
    exact bigDecimalDiv_brunswick_radius
  refine ⟨hcap, ?_, hrad, ?_, ?_⟩
  · rintro ts h ⟨dm⟩
    simp only [TableSpec.diamond_to_inches, TableSpec.inches_to_diamond,
      Diamond.mk.injEq]
    exact mul_div_cancel_right₀ dm h
  · refine (hcap TableSpec.brunswick_gc4_9ft (by norm_num [hBL]) ⟨1.125⟩).mpr hrad
  · simp only [TableSpec.inches_to_diamond_capped, TableSpec.diamond_to_inches,
      Diamond.mk.injEq, hBL]
    rw [show (3:ℚ) * 12.5 = 37.5 from by norm_num, bigDecimalDiv_brunswick_diamond]
    norm_num

/-- C2: `freeze_to_rail` pins the coordinate perpendicular to the chosen
rail at the cushion line offset inward by the ball radius in Diamond units
(Top: `y = 8 - r`, Bottom: `y = 0 + r`, Left: `x = 0 + r`, Right:
`x = 4 - r`), sets the along-rail coordinate to the supplied diamond, and
appends the resulting ball to `ball_positions`; on the Brunswick preset,
freezing to the bottom rail at diamond `1` yields `y = 1.125 / 12.5` and
`x = 1`. -/
theorem C2_freeze_to_rail_spec :
    (∀ (gs : GameState) (d : Diamond) (b : Ball),
      (gs.freeze_to_rail Rail.Top d b).ball_positions =
        gs.ball_positions ++
          [{ b with position :=
              { b.position with
                  y := Diamond.eight - gs.table_spec.inches_to_diamond b.spec.radius
                  x := d } }] ∧
      (gs.freeze_to_rail Rail.Bottom d b).ball_positions =
        gs.ball_positions ++
          [{ b with position :=
              { b.position with
                  y := Diamond.zero + gs.table_spec.inches_to_diamond b.spec.radius
                  x := d } }] ∧
      (gs.freeze_to_rail Rail.Left d b).ball_positions =
        gs.ball_positions ++
          [{ b with position :=
              { b.position with
                  x := Diamond.zero + gs.table_spec.inches_to_diamond b.spec.radius
                  y := d } }] ∧
      (gs.freeze_to_rail Rail.Right d b).ball_positions =
        gs.ball_positions ++
          [{ b with position :=
              { b.position with
                  x := Diamond.four - gs.table_spec.inches_to_diamond b.spec.radius
                  y := d } }]) ∧
    (((GameState.mk TableSpec.brunswick_gc4_9ft [] GameType.NineBall
          CueballModifier.AsItLays []).freeze_to_rail Rail.Bottom ⟨1⟩
          (Ball.mk BallType.Cue ⟨⟨0⟩, ⟨0⟩, none, none⟩ ⟨⟨1.125⟩⟩)).ball_positions.getD 0
        (Ball.mk BallType.Cue ⟨⟨0⟩, ⟨0⟩, none, none⟩ ⟨⟨1.125⟩⟩)).position.y.magnitude =
      1.125 / 12.5 ∧
    (((GameState.mk TableSpec.brunswick_gc4_9ft [] GameType.NineBall
          CueballModifier.AsItLays []).freeze_to_rail Rail.Bottom ⟨1⟩
          (Ball.mk BallType.Cue ⟨⟨0⟩, ⟨0⟩, none, none⟩ ⟨⟨1.125⟩⟩)).ball_positions.getD 0
        (Ball.mk BallType.Cue ⟨⟨0⟩, ⟨0⟩, none, none⟩ ⟨⟨1.125⟩⟩)).position.x.magnitude = 1 := by
  refine ⟨fun gs d b => ⟨rfl, rfl, rfl, rfl⟩, ?_, rfl⟩
  show (0 : ℚ) + 1.125 / 12.5 = 1.125 / 12.5
  norm_num

/-- C3 counterexample: the first of the nine returned rack positions is the
head ball, which is exactly `RACK_SPOT` and carries no pending shifts at
all, so not every returned Position has its unresolved shift fields set
(shown at the representative approximation value `1.7320508075688772935`
for the packing constant). -/
theorem C3_head_ball_counterexample :
    (racked_ball_positions 1.7320508075688772935).head? = some RACK_SPOT ∧
    RACK_SPOT.unresolved_x_shift = none ∧
    RACK_SPOT.unresolved_y_shift = none :=
  ⟨rfl, rfl, rfl⟩

/-- C3 (amended): `racked_ball_positions` returns nine Positions whose
first element is the head ball, exactly `RACK_SPOT` with no pending
shifts; each of the remaining eight Positions is returned still carrying
both pending inch-shifts (its unresolved shift fields set), with
conversion to Diamond coordinates deferred to a later bulk resolution
against a `TableSpec`.  This holds for every value of the packing
approximation parameter. -/
theorem C3_rack_pending_shifts (sqrt3_approx : ℚ) :
    (racked_ball_positions sqrt3_approx).length = 9 ∧
    (racked_ball_positions sqrt3_approx).head? = some RACK_SPOT ∧
    RACK_SPOT.unresolved_x_shift = none ∧
    RACK_SPOT.unresolved_y_shift = none ∧
    (∀ i : Fin 8,
      (((racked_ball_positions sqrt3_approx).tail.getD i.val RACK_SPOT).unresolved_x_shift.isSome
        = true) ∧
      (((racked_ball_positions sqrt3_approx).tail.getD i.val RACK_SPOT).unresolved_y_shift.isSome
        = true)) := by
  refine ⟨rfl, rfl, rfl, rfl, ?_⟩
  intro i
  fin_cases i <;> exact ⟨rfl, rfl⟩

/-- C5 counterexample: `TableSpec` construction performs no validation —
a `TableSpec` with `diamond_length` zero (or negative) is built without
any failure; nothing fails at construction time. -/
theorem C5_zero_length_constructs :
    ({ TableSpec.brunswick_gc4_9ft with diamond_length := ⟨0⟩ } : TableSpec).diamond_length =
      ⟨0⟩ ∧
    ({ TableSpec.brunswick_gc4_9ft with diamond_length := ⟨-1⟩ } : TableSpec).diamond_length =
      ⟨-1⟩ :=
  ⟨rfl, rfl⟩

/-- C5 (amended): `TableSpec` has public fields and no validating
constructor, so constructing one with any `diamond_length` — including
zero or negative — succeeds and stores the value unchanged; the
misconfiguration is not caught at construction (with a zero
`diamond_length` the underlying decimal division fails only at first
conversion). -/
theorem C5_no_construction_validation (m : ℚ) (ps : List PocketSpec) (buf : Diamond) :
    (TableSpec.mk ps buf ⟨m⟩).diamond_length = ⟨m⟩ ∧
    ({ TableSpec.brunswick_gc4_9ft with diamond_length := ⟨m⟩ } : TableSpec).diamond_length =
      ⟨m⟩ :=
  ⟨rfl, rfl⟩

/-- C6 counterexample: computing a `Displacement` from a Position whose
pending shift fields are both set succeeds silently, using only the stale
`x`/`y` coordinates — there is no explicit check and no loud failure. -/
theorem C6_stale_displacement_counterexample :
    (Position.mk ⟨1⟩ ⟨1⟩ (some ⟨5⟩) (some ⟨5⟩)).displacement
        (Position.mk ⟨2⟩ ⟨2⟩ none none) = ⟨⟨2 - 1⟩, ⟨2 - 1⟩⟩ :=
  rfl

/-- C6 (amended): neither `displacement` nor `angle_to_pocket` checks the
pending shift fields: both are computed from the `x`/`y` coordinates
alone, giving the same (stale) result whatever the unresolved shifts are,
rather than failing loudly. -/
theorem C6_no_unresolved_guard :
    (∀ (x y : Diamond) (sx sy sx' sy' : Option Inches) (q : Position),
      (Position.mk x y sx sy).displacement q = (Position.mk x y sx' sy').displacement q ∧
      (Position.mk x y sx sy).displacement q = ⟨q.x - x, q.y - y⟩) ∧
    (∀ (x y : Diamond) (sx sy sx' sy' : Option Inches) (pk : Pocket),
      (Position.mk x y sx sy).angle_to_pocket pk =
        (Position.mk x y sx' sy').angle_to_pocket pk) :=
  ⟨fun _ _ _ _ _ _ _ => ⟨rfl, rfl⟩, fun _ _ _ _ _ _ _ => rfl⟩

/-- C7: `resolve_shifts` folds each pending shift, converted via
`inches_to_diamond`, into the corresponding coordinate and clears both
pending fields; applying it a second time (with no intervening shift
additions) leaves the Position entirely unchanged. -/
theorem C7_resolve_shifts_spec (p : Position) (ts : TableSpec) :
    (p.resolve_shifts ts).x =
      p.x + ts.inches_to_diamond (p.unresolved_x_shift.getD ⟨0⟩) ∧
    (p.resolve_shifts ts).y =
      p.y + ts.inches_to_diamond (p.unresolved_y_shift.getD ⟨0⟩) ∧
    (p.resolve_shifts ts).unresolved_x_shift = none ∧
    (p.resolve_shifts ts).unresolved_y_shift = none ∧
    (p.resolve_shifts ts).resolve_shifts ts = p.resolve_shifts ts := by
  obtain ⟨⟨xm⟩, ⟨ym⟩, sx, sy⟩ := p
  cases sx <;> cases sy <;>
    simp [Position.resolve_shifts, Position.shift_horizontally,
      Position.shift_vertically, TableSpec.inches_to_diamond, Option.getD,
      Diamond.mk.injEq]

/-- C10: `merge_unset_component` writes the diamond into `x` when `x` is
zero, otherwise into `y` when `y` is zero, and panics (the `unreachable!`
branch, modelled by `none`) whenever both coordinates are nonzero — so the
call is only safe when at least one coordinate is zero. -/
theorem C10_merge_unset_component_spec (p : Position) (d : Diamond) :
    (p.x = Diamond.zero → p.merge_unset_component d = some { p with x := d }) ∧
    (p.x ≠ Diamond.zero → p.y = Diamond.zero →
      p.merge_unset_component d = some { p with y := d }) ∧
    (p.x ≠ Diamond.zero → p.y ≠ Diamond.zero →
      p.merge_unset_component d = none) := by
  refine ⟨fun h => ?_, fun hx hy => ?_, fun hx hy => ?_⟩ <;>
    simp [Position.merge_unset_component, *]

/-- Witness for C10 at concrete positions covering all three branches. -/
theorem C10_merge_unset_component_witness :
    (Position.mk ⟨0⟩ ⟨3⟩ none none).merge_unset_component ⟨2⟩ =
      some (Position.mk ⟨2⟩ ⟨3⟩ none none) ∧
    (Position.mk ⟨1⟩ ⟨0⟩ none none).merge_unset_component ⟨2⟩ =
      some (Position.mk ⟨1⟩ ⟨2⟩ none none) ∧
    (Position.mk ⟨1⟩ ⟨1⟩ none none).merge_unset_component ⟨2⟩ = none :=
  ⟨(C10_merge_unset_component_spec (Position.mk ⟨0⟩ ⟨3⟩ none none) ⟨2⟩).1 rfl,
   (C10_merge_unset_component_spec (Position.mk ⟨1⟩ ⟨0⟩ none none) ⟨2⟩).2.1
     (by simp [Diamond.zero]) rfl,
   (C10_merge_unset_component_spec (Position.mk ⟨1⟩ ⟨1⟩ none none) ⟨2⟩).2.2
     (by simp [Diamond.zero]) (by simp [Diamond.zero])⟩

/-- Helper: value of `fremEuclid` once the floor of the quotient is known. -/
theorem fremEuclid_of_floor (x : ℝ) (k : ℤ) (h : ⌊x / 360⌋ = k) :
    fremEuclid x 360 = x - 360 * k := by
  rw [fremEuclid, h]

/-- C8: flipping an angle twice returns the original angle, for every
angle value in the `[0, 360)` range that all `Angle` constructors
(`from_north`, `flipped`) produce. -/
theorem C8_flipped_involution (a : ℝ) (h0 : 0 ≤ a) (h1 : a < 360) :
    (Angle.mk a).flipped.flipped = Angle.mk a := by
  simp only [Angle.flipped]
  rcases lt_or_le a 180 with hc | hc
  · have hf1 : ⌊(a + 180) / 360⌋ = (0 : ℤ) := by
      rw [Int.floor_eq_iff]
      constructor
      · push_cast
        positivity
      · push_cast
        rw [div_lt_iff₀ (by norm_num : (0:ℝ) < 360)]
        linarith
    rw [fremEuclid_of_floor _ _ hf1]
    have hf2 : ⌊(a + 180 - 360 * ((0 : ℤ) : ℝ) + 180) / 360⌋ = (1 : ℤ) := by
      rw [Int.floor_eq_iff]
      constructor
      · push_cast
        rw [le_div_iff₀ (by norm_num : (0:ℝ) < 360)]
        linarith
      · push_cast
        rw [div_lt_iff₀ (by norm_num : (0:ℝ) < 360)]
        linarith
    rw [fremEuclid_of_floor _ _ hf2]
    push_cast
    congr 1
    ring
  · have hf1 : ⌊(a + 180) / 360⌋ = (1 : ℤ) := by
      rw [Int.floor_eq_iff]
      constructor
      · push_cast
        rw [le_div_iff₀ (by norm_num : (0:ℝ) < 360)]
        linarith
      · push_cast
        rw [div_lt_iff₀ (by norm_num : (0:ℝ) < 360)]
        linarith
    rw [fremEuclid_of_floor _ _ hf1]
    have hf2 : ⌊(a + 180 - 360 * ((1 : ℤ) : ℝ) + 180) / 360⌋ = (0 : ℤ) := by
      rw [Int.floor_eq_iff]
      constructor
      · push_cast
        rw [le_div_iff₀ (by norm_num : (0:ℝ) < 360)]
        linarith
      · push_cast
        rw [div_lt_iff₀ (by norm_num : (0:ℝ) < 360)]
        linarith
    rw [fremEuclid_of_floor _ _ hf2]
    push_cast
    congr 1
    ring

/-- Witness for C8 at the concrete angle `45`. -/
theorem C8_flipped_involution_witness :
    (Angle.mk 45).flipped.flipped = Angle.mk 45 :=
  C8_flipped_involution 45 (by norm_num) (by norm_num)

/-- Helper: `atan2` always lands in the interval `(-π, π]`. -/
theorem atan2_bounds (dx dy : ℝ) :
    -Real.pi < atan2 dx dy ∧ atan2 dx dy ≤ Real.pi := by
  have hpi := Real.pi_pos
  have ha1 := Real.arctan_lt_pi_div_two (dx / dy)
  have ha2 := Real.neg_pi_div_two_lt_arctan (dx / dy)
  unfold atan2
  split_ifs with hdy hdy' hdx hdx1 hdx2
  · exact ⟨by linarith, by linarith⟩
  · have hq : dx / dy ≤ 0 := div_nonpos_iff.mpr (Or.inl ⟨hdx, hdy'.le⟩)
    have hle : Real.arctan (dx / dy) ≤ 0 := by
      have := Real.arctan_strictMono.monotone hq
      rwa [Real.arctan_zero] at this
    exact ⟨by linarith, by linarith⟩
  · have hq : 0 < dx / dy := div_pos_of_neg_of_neg (lt_of_not_le hdx) hdy'
    have hgt : 0 < Real.arctan (dx / dy) := by
      have := Real.arctan_strictMono hq
      rwa [Real.arctan_zero] at this
    exact ⟨by linarith, by linarith⟩
  · exact ⟨by linarith, by linarith⟩
  · exact ⟨by linarith, by linarith⟩
  · exact ⟨by linarith, by linarith⟩

/-- C9: `from_north` always returns a value in `[0, 360)`, and takes the
values `0`, `90`, `180`, `270` on the four cardinal displacements. -/
theorem C9_from_north_range_and_cardinals :
    (∀ dx dy : ℝ,
      0 ≤ (Angle.from_north dx dy).val ∧ (Angle.from_north dx dy).val < 360) ∧
    Angle.from_north 0 1 = Angle.mk 0 ∧
    Angle.from_north 1 0 = Angle.mk 90 ∧
    Angle.from_north 0 (-1) = Angle.mk 180 ∧
    Angle.from_north (-1) 0 = Angle.mk 270 := by
  have hpi := Real.pi_pos
  have hconv : (0:ℝ) < 180 / Real.pi := by positivity
  refine ⟨fun dx dy => ?_, ?_, ?_, ?_, ?_⟩
  · obtain ⟨hl, hu⟩ := atan2_bounds dx dy
    have hdegu : atan2 dx dy * (180 / Real.pi) ≤ 180 := by
      have h := mul_le_mul_of_nonneg_right hu hconv.le
      have he : Real.pi * (180 / Real.pi) = 180 := by
        field_simp
      linarith
    have hdegl : -180 < atan2 dx dy * (180 / Real.pi) := by
      have h := mul_lt_mul_of_pos_right hl hconv
      have he : -Real.pi * (180 / Real.pi) = -180 := by
        field_simp
        ring
      linarith
    simp only [Angle.from_north]
    split_ifs with h
    · constructor <;> linarith
    · constructor <;> linarith [not_lt.mp h]
  · have h : atan2 0 1 = 0 := by
      unfold atan2
      rw [if_pos one_pos]
      norm_num [Real.arctan_zero]
    simp only [Angle.from_north, h]
    norm_num
  · have h : atan2 1 0 = Real.pi / 2 := by
      unfold atan2
      rw [if_neg (lt_irrefl 0), if_neg (lt_irrefl 0), if_pos one_pos]
    have hdeg : Real.pi / 2 * (180 / Real.pi) = 90 := by
      field_simp
      ring
    simp only [Angle.from_north, h, hdeg]
    norm_num
  · have h : atan2 0 (-1) = Real.pi := by
      unfold atan2
      rw [if_neg (by norm_num : ¬ (0:ℝ) < -1),
        if_pos (by norm_num : (-1:ℝ) < 0), if_pos (le_refl (0:ℝ))]
      norm_num [Real.arctan_zero]
    have hdeg : Real.pi * (180 / Real.pi) = 180 := by
      field_simp
    simp only [Angle.from_north, h, hdeg]
    norm_num
  · have h : atan2 (-1) 0 = -(Real.pi / 2) := by
      unfold atan2
      rw [if_neg (lt_irrefl 0), if_neg (lt_irrefl 0),
        if_neg (by norm_num : ¬ (0:ℝ) < -1), if_pos (by norm_num : (-1:ℝ) < 0)]
    have hdeg : -(Real.pi / 2) * (180 / Real.pi) = -90 := by
      field_simp
      ring
    simp only [Angle.from_north, h, hdeg]
    norm_num


/-- Helper: a Diamond-space distance of the form `√(u² + v²) · L` equals
the constant `c` once the squared displacement is `(c / L)²`. -/
theorem sqrt_dist_const {u v c L : ℝ} (hL : 0 < L) (hc : 0 ≤ c)
    (h : u * u + v * v = (c / L) ^ 2) :
    Real.sqrt (u * u + v * v) * L = c := by
  rw [h, Real.sqrt_sq (div_nonneg hc hL.le), div_mul_cancel₀ _ hL.ne']

/-- Helper: a Diamond-space distance of the form `√(u² + v²) · L` equals
`r · √(1 + t²)` once the squared displacement is `(r / L)² · (1 + t²)`. -/
theorem sqrt_dist_scaled {u v r t L : ℝ} (hL : 0 < L) (hr : 0 ≤ r)
    (h : u * u + v * v = (r / L) ^ 2 * (1 + t ^ 2)) :
    Real.sqrt (u * u + v * v) * L = r * Real.sqrt (1 + t ^ 2) := by
  rw [h, Real.sqrt_mul (by positivity) (1 + t ^ 2),
    Real.sqrt_sq (div_nonneg hr hL.le)]
  field_simp

/-- Helper: resolved distance (inches) between the two second-row rack
balls is exactly `2.25 = 2 × radius`, on every table with positive
`diamond_length` and for every value of the packing parameter. -/
theorem rack_pair_second_row (s : ℚ) (ts : TableSpec)
    (hL : 0 < ts.diamond_length.magnitude) :
    rackPairDistanceInches s ts 1 2 = 2.25 := by
  have hLR : (0:ℝ) < (ts.diamond_length.magnitude : ℝ) := by exact_mod_cast hL
  simp only [rackPairDistanceInches, rackResolved, racked_ball_positions,
    Position.shift_vertically_inches, Position.shift_horizontally_inches,
    OPTIMAL_PACKING_RADIUS_SHIFT, TYPICAL_BALL_RADIUS, RACK_SPOT,
    Inches.double, inches_neg_def, inches_mul_def, inches_add_def,
    Option.getD, List.map, List.getD, List.get?,
    Position.resolve_shifts, Position.shift_horizontally, Position.shift_vertically,
    TableSpec.inches_to_diamond, Position.displacement,
    Displacement.absolute_distance, TableSpec.diamond_to_inches_real,
    diamond_add_def, diamond_sub_def]
  exact sqrt_dist_const hLR (by norm_num) (by push_cast; ring)

/-- Helper: resolved distance (inches) between the third-row left and
center rack balls is exactly `2.25`. -/
theorem rack_pair_third_row_left (s : ℚ) (ts : TableSpec)
    (hL : 0 < ts.diamond_length.magnitude) :
    rackPairDistanceInches s ts 3 4 = 2.25 := by
  have hLR : (0:ℝ) < (ts.diamond_length.magnitude : ℝ) := by exact_mod_cast hL
  simp only [rackPairDistanceInches, rackResolved, racked_ball_positions,
    Position.shift_vertically_inches, Position.shift_horizontally_inches,
    OPTIMAL_PACKING_RADIUS_SHIFT, TYPICAL_BALL_RADIUS, RACK_SPOT,
    Inches.double, inches_neg_def, inches_mul_def, inches_add_def,
    Option.getD, List.map, List.getD, List.get?,
    Position.resolve_shifts, Position.shift_horizontally, Position.shift_vertically,
    TableSpec.inches_to_diamond, Position.displacement,
    Displacement.absolute_distance, TableSpec.diamond_to_inches_real,
    diamond_add_def, diamond_sub_def]
  exact sqrt_dist_const hLR (by norm_num) (by push_cast; ring)

/-- Helper: resolved distance (inches) between the third-row center and
right rack balls is exactly `2.25`. -/
theorem rack_pair_third_row_right (s : ℚ) (ts : TableSpec)
    (hL : 0 < ts.diamond_length.magnitude) :
    rackPairDistanceInches s ts 4 5 = 2.25 := by
  have hLR : (0:ℝ) < (ts.diamond_length.magnitude : ℝ) := by exact_mod_cast hL
  simp only [rackPairDistanceInches, rackResolved, racked_ball_positions,
    Position.shift_vertically_inches, Position.shift_horizontally_inches,
    OPTIMAL_PACKING_RADIUS_SHIFT, TYPICAL_BALL_RADIUS, RACK_SPOT,
    Inches.double, inches_neg_def, inches_mul_def, inches_add_def,
    Option.getD, List.map, List.getD, List.get?,
    Position.resolve_shifts, Position.shift_horizontally, Position.shift_vertically,
    TableSpec.inches_to_diamond, Position.displacement,
    Displacement.absolute_distance, TableSpec.diamond_to_inches_real,
    diamond_add_def, diamond_sub_def]
  exact sqrt_dist_const hLR (by norm_num) (by push_cast; ring)

/-- Helper: resolved distance (inches) between the two fourth-row rack
balls is exactly `2.25`. -/
theorem rack_pair_fourth_row (s : ℚ) (ts : TableSpec)
    (hL : 0 < ts.diamond_length.magnitude) :
    rackPairDistanceInches s ts 6 7 = 2.25 := by
  have hLR : (0:ℝ) < (ts.diamond_length.magnitude : ℝ) := by exact_mod_cast hL
  simp only [rackPairDistanceInches, rackResolved, racked_ball_positions,
    Position.shift_vertically_inches, Position.shift_horizontally_inches,
    OPTIMAL_PACKING_RADIUS_SHIFT, TYPICAL_BALL_RADIUS, RACK_SPOT,
    Inches.double, inches_neg_def, inches_mul_def, inches_add_def,
    Option.getD, List.map, List.getD, List.get?,
    Position.resolve_shifts, Position.shift_horizontally, Position.shift_vertically,
    TableSpec.inches_to_diamond, Position.displacement,
    Displacement.absolute_distance, TableSpec.diamond_to_inches_real,
    diamond_add_def, diamond_sub_def]
  exact sqrt_dist_const hLR (by norm_num) (by push_cast; ring)

/-- Helper: resolved distance (inches) from the head ball to the
second-row-left ball is `1.125 · √(1 + s²)`, where `s` is the packing
approximation of `√3`. -/
theorem rack_head_to_second_left (s : ℚ) (ts : TableSpec)
    (hL : 0 < ts.diamond_length.magnitude) :
    rackPairDistanceInches s ts 0 1 = 1.125 * Real.sqrt (1 + (s:ℝ) ^ 2) := by
  have hLR : (0:ℝ) < (ts.diamond_length.magnitude : ℝ) := by exact_mod_cast hL
  simp only [rackPairDistanceInches, rackResolved, racked_ball_positions,
    Position.shift_vertically_inches, Position.shift_horizontally_inches,
    OPTIMAL_PACKING_RADIUS_SHIFT, TYPICAL_BALL_RADIUS, RACK_SPOT,
    Inches.double, inches_neg_def, inches_mul_def, inches_add_def,
    Option.getD, List.map, List.getD, List.get?,
    Position.resolve_shifts, Position.shift_horizontally, Position.shift_vertically,
    TableSpec.inches_to_diamond, Position.displacement,
    Displacement.absolute_distance, TableSpec.diamond_to_inches_real,
    diamond_add_def, diamond_sub_def]
  exact sqrt_dist_scaled hLR (by norm_num) (by push_cast; ring)

/-- Helper: resolved distance (inches) from the head ball to the
second-row-right ball is also `1.125 · √(1 + s²)`. -/
theorem rack_head_to_second_right (s : ℚ) (ts : TableSpec)
    (hL : 0 < ts.diamond_length.magnitude) :
    rackPairDistanceInches s ts 0 2 = 1.125 * Real.sqrt (1 + (s:ℝ) ^ 2) := by
  have hLR : (0:ℝ) < (ts.diamond_length.magnitude : ℝ) := by exact_mod_cast hL
  simp only [rackPairDistanceInches, rackResolved, racked_ball_positions,
    Position.shift_vertically_inches, Position.shift_horizontally_inches,
    OPTIMAL_PACKING_RADIUS_SHIFT, TYPICAL_BALL_RADIUS, RACK_SPOT,
    Inches.double, inches_neg_def, inches_mul_def, inches_add_def,
    Option.getD, List.map, List.getD, List.get?,
    Position.resolve_shifts, Position.shift_horizontally, Position.shift_vertically,
    TableSpec.inches_to_diamond, Position.displacement,
    Displacement.absolute_distance, TableSpec.diamond_to_inches_real,
    diamond_add_def, diamond_sub_def]
  exact sqrt_dist_scaled hLR (by norm_num) (by push_cast; ring)

/-- Helper: no rational value of the packing parameter makes the
head-to-second-row distance exactly `2.25`, on any table with positive
`diamond_length`, since that would force `s² = 3` with `s` rational. -/
theorem rack_head_distance_ne (s : ℚ) (ts : TableSpec)
    (hL : 0 < ts.diamond_length.magnitude) :
    rackPairDistanceInches s ts 0 1 ≠ 2.25 := by
  rw [rack_head_to_second_left s ts hL]
  intro h
  have hs : Real.sqrt (1 + (s:ℝ) ^ 2) = 2 := by linarith
  have hnn : (0:ℝ) ≤ 1 + (s:ℝ) ^ 2 := by positivity
  have h4 : 1 + (s:ℝ) ^ 2 = 4 := by
    have hsq := Real.sq_sqrt hnn
    rw [hs] at hsq
    norm_num at hsq
    linarith
  have h3R : (s:ℝ) ^ 2 = 3 := by linarith
  have habs : Real.sqrt 3 = |(s:ℝ)| := by
    rw [← h3R, Real.sqrt_sq_eq_abs]
  have hirr : Irrational (Real.sqrt 3) := by
    have := Nat.prime_three.irrational_sqrt
    simpa using this
  exact hirr ⟨|s|, by rw [Rat.cast_abs]; exact habs.symm⟩

/-- C4 counterexample: with the packing constant at the representative
decimal approximation `1.7320508075688772935` of `√3`, the resolved
head-to-second-row center distance on the Brunswick table is not
`2 × radius = 2.25` inches. -/
theorem C4_head_spacing_counterexample :
    rackPairDistanceInches 1.7320508075688772935 TableSpec.brunswick_gc4_9ft 0 1 ≠
      2.25 :=
  rack_head_distance_ne 1.7320508075688772935 TableSpec.brunswick_gc4_9ft
    (by norm_num [TableSpec.brunswick_gc4_9ft])

/-- C4 (amended): after resolving the rack against any `TableSpec` with
positive `diamond_length`, the distance between adjacent same-row balls —
both second-row balls, both adjacent third-row pairs, and both fourth-row
balls — equals `2 × radius = 2.25` inches exactly; the distance from the
head ball to either second-row ball equals `1.125 · √(1 + s²)` inches,
where `s` is the decimal approximation of `√3` stored in the packing
constant — equal to `2 × radius` only if `s² = 3`, which no decimal
(rational) `s` satisfies, so the head-row spacing is close to but never
exactly `2 × radius`. -/
theorem C4_rack_spacing_amended (s : ℚ) (ts : TableSpec)
    (hL : 0 < ts.diamond_length.magnitude) :
    rackPairDistanceInches s ts 1 2 = 2.25 ∧
    rackPairDistanceInches s ts 3 4 = 2.25 ∧
    rackPairDistanceInches s ts 4 5 = 2.25 ∧
    rackPairDistanceInches s ts 6 7 = 2.25 ∧
    rackPairDistanceInches s ts 0 1 = 1.125 * Real.sqrt (1 + (s:ℝ) ^ 2) ∧
    rackPairDistanceInches s ts 0 2 = 1.125 * Real.sqrt (1 + (s:ℝ) ^ 2) ∧
    rackPairDistanceInches s ts 0 1 ≠ 2.25 :=
  ⟨rack_pair_second_row s ts hL, rack_pair_third_row_left s ts hL,
   rack_pair_third_row_right s ts hL, rack_pair_fourth_row s ts hL,
   rack_head_to_second_left s ts hL, rack_head_to_second_right s ts hL,
   rack_head_distance_ne s ts hL⟩

/-- Witness for C4 (amended) at the concrete parameter `3/2` and the
Brunswick preset. -/
theorem C4_rack_spacing_amended_witness :
    rackPairDistanceInches (3/2) TableSpec.brunswick_gc4_9ft 1 2 = 2.25 ∧
    rackPairDistanceInches (3/2) TableSpec.brunswick_gc4_9ft 3 4 = 2.25 ∧
    rackPairDistanceInches (3/2) TableSpec.brunswick_gc4_9ft 4 5 = 2.25 ∧
    rackPairDistanceInches (3/2) TableSpec.brunswick_gc4_9ft 6 7 = 2.25 ∧
    rackPairDistanceInches (3/2) TableSpec.brunswick_gc4_9ft 0 1 =
      1.125 * Real.sqrt (1 + ((3/2 : ℚ) : ℝ) ^ 2) ∧
    rackPairDistanceInches (3/2) TableSpec.brunswick_gc4_9ft 0 2 =
      1.125 * Real.sqrt (1 + ((3/2 : ℚ) : ℝ) ^ 2) ∧
    rackPairDistanceInches (3/2) TableSpec.brunswick_gc4_9ft 0 1 ≠ 2.25 :=
  C4_rack_spacing_amended (3/2) TableSpec.brunswick_gc4_9ft
    (by norm_num [TableSpec.brunswick_gc4_9ft])
